import Mathlib

/-!
Verification of the Bright-Stars-Future-Foresights ingestion pipeline.

The Python sources are shallowly embedded: pure string computations become
functions on `String` / `List Char`, the SQLite articles table becomes a list
of rows plus an autoincrement counter, floating point scores become `ℚ`, and
every fallible external effect (HTTP, LLM call, date parsing) is made explicit
as a function argument or an `Option`-valued field, so that both the success
and the failure branch of the original `try/except` code are covered.

Python's `str.lower` is modelled by mapping `Char.toLower` over the
characters (identical on the ASCII texts involved), and the substring test
`needle in hay` is modelled by `hasSub`.
-/

namespace BrightStars

/-- Boolean test: is the first character list an initial segment of the second.

This is the executable kernel of the substring test below. -/
def hasPre : List Char → List Char → Bool
  | [], _ => true
  | _ :: _, [] => false
  | a :: as, b :: bs => a == b && hasPre as bs

/-- Boolean model of Python's substring operator `pat in s` on character
lists: `pat` occurs contiguously somewhere in `s`. -/
def hasSub (pat : List Char) : List Char → Bool
  | [] => pat.isEmpty
  | b :: bs => hasPre pat (b :: bs) || hasSub pat bs

/-- Model of Python's `str.lower` (exact on ASCII): the character list of a
string with every character lowercased. -/
def lowerL (s : String) : List Char := s.toList.map Char.toLower

theorem hasPre_iff (pat : List Char) : ∀ s : List Char,
    hasPre pat s = true ↔ ∃ rest, s = pat ++ rest := by
  induction pat with
  | nil =>
    intro s
    simp [hasPre]
  | cons a as ih =>
    intro s
    cases s with
    | nil =>
      simp [hasPre]
    | cons b bs =>
      simp only [hasPre, Bool.and_eq_true, beq_iff_eq, ih bs]
      constructor
      · rintro ⟨rfl, rest, rfl⟩
        exact ⟨rest, rfl⟩
      · rintro ⟨rest, h⟩
        rw [List.cons_append] at h
        cases h
        exact ⟨rfl, rest, rfl⟩

theorem hasSub_iff (pat : List Char) : ∀ s : List Char,
    hasSub pat s = true ↔ ∃ pre post, s = pre ++ pat ++ post := by
  intro s
  induction s with
  | nil =>
    simp only [hasSub, List.isEmpty_iff]
    constructor
    · rintro rfl
      exact ⟨[], [], rfl⟩
    · rintro ⟨pre, post, h⟩
      rcases List.append_eq_nil.mp (List.append_eq_nil.mp h.symm).1 with ⟨-, h2⟩
      exact h2
  | cons b bs ih =>
    simp only [hasSub, Bool.or_eq_true, hasPre_iff, ih]
    constructor
    · rintro (⟨rest, h⟩ | ⟨pre, post, h⟩)
      · exact ⟨[], rest, by simpa using h⟩
      · exact ⟨b :: pre, post, by simp [h]⟩
    · rintro ⟨pre, post, h⟩
      cases pre with
      | nil =>
        exact Or.inl ⟨post, by simpa using h⟩
      | cons c cs =>
        rw [List.cons_append, List.cons_append] at h
        cases h
        exact Or.inr ⟨cs, post, rfl⟩

/-- Model of the regex substitution `re.sub(r'\s+', ' ', s)` used by both
full-text scrapers: every maximal run of whitespace characters is replaced by
a single space. -/
def squeeze : List Char → List Char
  | [] => []
  | [c] => [if c.isWhitespace then ' ' else c]
  | c :: d :: cs =>
    if c.isWhitespace && d.isWhitespace then squeeze (d :: cs)
    else (if c.isWhitespace then ' ' else c) :: squeeze (d :: cs)

/-- Model of Python's `str.strip()`: drop leading and trailing whitespace. -/
def trimWs (l : List Char) : List Char :=
  ((l.dropWhile Char.isWhitespace).reverse.dropWhile Char.isWhitespace).reverse

/-- Model of `re.sub(r'\s+', ' ', s).strip()`, the whitespace normalisation
applied by both `extract_full_text` implementations. -/
def collapseWs (s : String) : String := String.mk (trimWs (squeeze s.toList))

/-- Adjacent characters are not both whitespace. -/
def wsPair (a b : Char) : Prop := ¬(a.isWhitespace = true ∧ b.isWhitespace = true)

theorem squeeze_head_of_not_ws (d : Char) (cs : List Char)
    (h : d.isWhitespace = false) : (squeeze (d :: cs)).head? = some d := by
  cases cs with
  | nil => simp [squeeze, h]
  | cons e es => simp [squeeze, h]

theorem squeeze_chain : (l : List Char) → List.Chain' wsPair (squeeze l)
  | [] => by simp [squeeze]
  | [c] => by simp [squeeze]
  | c :: d :: cs => by
    have ih := squeeze_chain (d :: cs)
    by_cases hc : c.isWhitespace <;> by_cases hd : d.isWhitespace
    · simpa [squeeze, hc, hd] using ih
    · rw [show squeeze (c :: d :: cs)
          = (if c.isWhitespace then ' ' else c) :: squeeze (d :: cs) by
        simp [squeeze, hc, eq_false_of_ne_true hd]]
      rw [List.chain'_cons']
      refine ⟨?_, ih⟩
      intro y hy
      rw [squeeze_head_of_not_ws d cs (eq_false_of_ne_true hd)] at hy
      cases hy
      intro hcon
      exact hd hcon.2
    · rw [show squeeze (c :: d :: cs)
          = (if c.isWhitespace then ' ' else c) :: squeeze (d :: cs) by
        simp [squeeze, eq_false_of_ne_true hc]]
      rw [List.chain'_cons']
      refine ⟨?_, ih⟩
      intro y hy
      rw [if_neg hc]
      intro hcon
      exact hc hcon.1
    · rw [show squeeze (c :: d :: cs)
          = (if c.isWhitespace then ' ' else c) :: squeeze (d :: cs) by
        simp [squeeze, eq_false_of_ne_true hc]]
      rw [List.chain'_cons']
      refine ⟨?_, ih⟩
      intro y hy
      rw [if_neg hc]
      intro hcon
      exact hc hcon.1

theorem wsPair_flip {a b : Char} (h : wsPair a b) : wsPair b a := by
  intro hcon
  exact h ⟨hcon.2, hcon.1⟩

theorem chain_of_suffix_chain {l₁ l : List Char}
    (h : List.Chain' wsPair l) (hs : l₁ <:+ l) : List.Chain' wsPair l₁ :=
  List.Chain'.suffix h hs

theorem trimWs_chain (l : List Char) (h : List.Chain' wsPair l) :
    List.Chain' wsPair (trimWs l) := by
  have h1 : List.Chain' wsPair (l.dropWhile Char.isWhitespace) :=
    chain_of_suffix_chain h (List.dropWhile_suffix _)
  have h2 : List.Chain' (flip wsPair) (l.dropWhile Char.isWhitespace) :=
    h1.imp (fun a b hab => wsPair_flip hab)
  have h3 : List.Chain' wsPair (l.dropWhile Char.isWhitespace).reverse :=
    (List.chain'_reverse.mpr h2).imp (fun a b hab => hab)
  have h4 : List.Chain' wsPair
      ((l.dropWhile Char.isWhitespace).reverse.dropWhile Char.isWhitespace) :=
    chain_of_suffix_chain h3 (List.dropWhile_suffix _)
  have h5 : List.Chain' (flip wsPair)
      ((l.dropWhile Char.isWhitespace).reverse.dropWhile Char.isWhitespace) :=
    h4.imp (fun a b hab => wsPair_flip hab)
  exact (List.chain'_reverse.mpr h5).imp (fun a b hab => hab)

theorem head_dropWhile_not_ws (l : List Char) (c : Char)
    (h : (l.dropWhile Char.isWhitespace).head? = some c) :
    c.isWhitespace = false := by
  have := List.head?_dropWhile_not Char.isWhitespace l
  rw [h] at this
  exact this

theorem trimWs_getLast (l : List Char) (c : Char)
    (h : (trimWs l).getLast? = some c) : c.isWhitespace = false := by
  rw [trimWs, List.getLast?_reverse] at h
  exact head_dropWhile_not_ws _ c h

theorem trimWs_head (l : List Char) (c : Char)
    (h : (trimWs l).head? = some c) : c.isWhitespace = false := by
  set l2 := l.dropWhile Char.isWhitespace with hl2
  obtain ⟨t, ht⟩ : l2.reverse.dropWhile Char.isWhitespace <:+ l2.reverse :=
    List.dropWhile_suffix _
  have hdecomp : l2 = trimWs l ++ t.reverse := by
    have := congrArg List.reverse ht
    simpa [trimWs, ← hl2] using this.symm
  have hhead : l2.head? = some c := by
    rw [hdecomp, List.head?_append, h]
    rfl
  exact head_dropWhile_not_ws l c hhead

theorem collapseWs_chain (s : String) :
    List.Chain' wsPair (collapseWs s).toList := by
  have : (collapseWs s).toList = trimWs (squeeze s.toList) := rfl
  rw [this]
  exact trimWs_chain _ (squeeze_chain _)

theorem collapseWs_head (s : String) (c : Char)
    (h : (collapseWs s).toList.head? = some c) : c.isWhitespace = false :=
  trimWs_head _ c h

theorem collapseWs_getLast (s : String) (c : Char)
    (h : (collapseWs s).toList.getLast? = some c) : c.isWhitespace = false :=
  trimWs_getLast _ c h

/-- A scraped/parsed HTTP fetch outcome, as seen by `extract_full_text`:
either a response with a status code and the text of each `<p>` element of
the parsed page, or an exception carrying its message.  This makes the
`try/except` branches of the Python explicit. -/
inductive HttpOutcome where
  | resp (status : Nat) (paragraphs : List String)
  | exn (msg : String)

namespace Fetcher

/-- `src/fetcher.py` `Article` dataclass. -/
structure Article where
  title : String
  link : String
  snippet : String
  relevance_score : ℚ
  published_date : String
  source : String
  full_text : String := ""
  locations : String := ""
  novelty_score : ℚ := 0
  heat_score : ℚ := 0

/-- One row of the SQLite `articles` table of `src/fetcher.py`
(`create_articles_table`): the article fields plus the store-assigned
`INTEGER PRIMARY KEY AUTOINCREMENT` id. -/
structure Row where
  id : Nat
  title : String
  link : String
  snippet : String
  relevance_score : ℚ
  published_date : String
  source : String
  full_text : String
  locations : String
  novelty_score : ℚ
  heat_score : ℚ

/-- The `articles` table: its rows plus the autoincrement counter. -/
structure ArticlesTable where
  rows : List Row
  nextId : Nat

/-- `DatabaseManager.article_exists`: `SELECT COUNT(*) FROM articles WHERE
link = ?` compared with 0. -/
def article_exists (db : ArticlesTable) (link : String) : Bool :=
  db.rows.any (fun r => r.link == link)

/-- The row created for an article, with the store-assigned id. -/
def rowOf (i : Nat) (a : Article) : Row :=
  { id := i, title := a.title, link := a.link, snippet := a.snippet,
    relevance_score := a.relevance_score, published_date := a.published_date,
    source := a.source, full_text := a.full_text, locations := a.locations,
    novelty_score := a.novelty_score, heat_score := a.heat_score }

/-- `DatabaseManager.insert_article`: `INSERT OR IGNORE INTO articles ...`.
Because `link` carries a `UNIQUE` constraint, the insert is silently dropped
exactly when some stored row already has the same link; otherwise the row is
appended with the next autoincrement id. -/
def insert_article (db : ArticlesTable) (a : Article) : ArticlesTable :=
  if article_exists db a.link then db
  else { rows := db.rows ++ [rowOf db.nextId a], nextId := db.nextId + 1 }

/-- `ArticleProcessor.calculate_novelty_score`'s indicator table
(`innovation_indicators`), in source order. -/
def innovation_indicators : List (String × ℚ) :=
  [("breakthrough", 10), ("revolutionary", 8), ("first-ever", 10),
   ("innovative", 7), ("novel", 6), ("new technology", 8), ("patent", 7),
   ("prototype", 5), ("research", 4), ("development", 3), ("latest", 4),
   ("emerging", 5)]

/-- `ArticleProcessor.calculate_heat_score`'s indicator table
(`trending_indicators`), in source order. -/
def trending_indicators : List (String × ℚ) :=
  [("trending", 10), ("viral", 9), ("popular", 7), ("breaking", 8),
   ("exclusive", 6), ("report", 4), ("announces", 5), ("launches", 6)]

/-- The accumulation loop shared by both score functions: starting from
`score = 0, total_weight = 0`, add each indicator's weight to both whenever
the indicator occurs in the (already lowercased) text. -/
def scoreAccum (t : List Char) (inds : List (String × ℚ)) : ℚ × ℚ :=
  inds.foldl
    (fun p iw => if hasSub iw.1.toList t then (p.1 + iw.2, p.2 + iw.2) else p)
    (0, 0)

/-- `ArticleProcessor.calculate_novelty_score`: lowercase the text, run the
indicator loop, return `min(100.0, (score / max(total_weight, 1)) * 100)`. -/
def calculate_novelty_score (text : String) : ℚ :=
  let p := scoreAccum (lowerL text) innovation_indicators
  min 100 ((p.1 / max p.2 1) * 100)

/-- `ArticleProcessor.calculate_heat_score`.  The date arithmetic of the
source (`strptime` on the published date, then `(now - pub).days`) is
abstracted by its result `daysOld`: `some d` models a successful parse whose
day difference is `d`, and `none` models the `except:` branch, which sets
`recency_factor = 0.5`.  The claim fixes the published date and "now", so
quantifying over `daysOld` covers every such pair. -/
def calculate_heat_score (text : String) (daysOld : Option Int) : ℚ :=
  let p := scoreAccum (lowerL text) trending_indicators
  let recency_factor : ℚ :=
    match daysOld with
    | some d => max 0 (1 - (d : ℚ) / 30)
    | none => 1 / 2
  min 100 ((p.1 / max p.2 1) * 70 + recency_factor * 30)

/-- `ArticleProcessor.extract_full_text`: any exception (including the one
`raise_for_status()` raises on a non-200 response) is caught and the function
returns `""`; on a 200 response it joins the stripped paragraph texts with a
space and collapses whitespace. -/
def extract_full_text (o : HttpOutcome) : String :=
  match o with
  | .exn _ => ""
  | .resp status paras =>
    if status ≠ 200 then ""
    else collapseWs (String.intercalate " " (paras.map String.trim))

/-- `src/fetcher.py`'s module-level `TECHNOLOGY_KEYWORDS` table (the live
code of that file never consults it: the keyword filter survives only in
commented-out code). -/
def TECHNOLOGY_KEYWORDS : List String :=
  ["oil", "gas", "petroleum",
   "technology", "innovation", "AI", "machine learning", "automation",
   "robotics", "digital transformation", "IoT", "sustainability",
   "digital twin", "predictive analytics", "edge computing", "cloud computing",
   "industrial IoT", "big data analytics", "cybersecurity in oil & gas",
   "SCADA", "remote monitoring", "5G in oil & gas", "AI-driven optimization",
   "process automation", "digital oilfield", "smart sensors", "machine vision",
   "AI-assisted drilling", "AI in reservoir simulation",
   "reinforcement learning in drilling", "predictive maintenance AI",
   "autonomous drilling", "AI-powered seismic interpretation",
   "cognitive computing in exploration", "deep learning for oilfield analytics",
   "AI-based pipeline monitoring", "LLM", "LLMs in oil and gas",
   "autonomous underwater vehicles", "remotely operated vehicles",
   "AI-driven inspection robots", "self-healing pipelines",
   "automated drilling rigs", "drone inspections in oil & gas",
   "smart drilling", "digital roughnecks", "robotic well intervention",
   "robotic refinery maintenance",
   "carbon capture", "carbon utilization", "carbon storage",
   "carbon sequestration", "direct air capture", "low-carbon hydrogen",
   "blue hydrogen", "green hydrogen", "hydrogen blending in pipelines",
   "carbon footprint reduction", "carbon intensity reduction",
   "methane detection", "methane emissions monitoring", "flare gas recovery",
   "renewable natural gas", "decarbonization strategies",
   "biofuels in oil & gas", "CO₂ injection", "net-zero emissions",
   "sustainable drilling",
   "chemical EOR", "thermal EOR", "microbial EOR", "CO₂ EOR",
   "nanotechnology in EOR", "gas injection EOR", "smart water flooding",
   "surfactant-polymer flooding", "smart tracers in EOR",
   "low-salinity water injection",
   "subsurface imaging", "AI-assisted seismic processing",
   "fiber optic sensing", "seismic inversion", "distributed acoustic sensing",
   "4D seismic analysis", "electromagnetic exploration",
   "seismic reflection tomography", "microseismic monitoring",
   "seismic while drilling", "AI-based reservoir modeling",
   "drilling automation", "automated drilling control",
   "managed pressure drilling", "intelligent completions",
   "smart well technology", "rotary steerable systems",
   "logging while drilling", "measurement while drilling",
   "wellbore stability analysis", "digital drilling fluids",
   "expandable tubulars", "real-time downhole monitoring",
   "casing drilling technology", "high-temperature drilling tools",
   "AI-driven pipeline monitoring", "smart pipeline coatings",
   "leak detection systems", "pipeline integrity management",
   "hydrogen pipeline transport", "pipeline pigging technology",
   "AI-based predictive pipeline maintenance", "refinery digitalization",
   "advanced catalyst development", "renewable refining technologies",
   "subsea production systems", "floating LNG",
   "offshore wind integration with oil & gas", "deepwater drilling automation",
   "AI-driven FPSO monitoring", "subsea robotics",
   "autonomous underwater monitoring", "digital twin for offshore platforms",
   "subsea factory concept", "autonomous tanker loading",
   "nanomaterials in oil recovery", "smart drilling fluids",
   "self-healing materials", "graphene-based sensors",
   "smart coatings for pipelines", "high-temperature superconductors",
   "nano-enhanced lubricants", "superhydrophobic coatings for pipelines",
   "gas-to-liquids", "power-to-gas", "synthetic fuels",
   "hybrid energy systems in oilfields", "enhanced geothermal systems",
   "hydrogen-powered drilling", "floating solar in oilfields",
   "renewable diesel", "bio-refineries in oil & gas",
   "AI-driven energy storage optimization",
   "quantum computing",
   "Saudi Aramco", "ExxonMobil", "Chevron", "Shell", "PetroChina",
   "TotalEnergies", "BP", "Sinopec", "Gazprom", "ConocoPhillips", "Rosneft",
   "Eni", "Equinor", "Phillips 66", "Valero Energy", "Marathon Petroleum",
   "Petrobras", "Lukoil", "Occidental Petroleum", "Repsol", "Devon Energy",
   "Hess Corporation", "OMV", "CNOOC", "Canadian Natural Resources"]

/-- The keyword test of the (commented-out) filter of `src/fetcher.py`:
`any(keyword.lower() in clean_text for keyword in TECHNOLOGY_KEYWORDS)` over
`clean_text = f-string of title, summary and full text, lowercased`. -/
def keywordMatchAll (title summary full_text : String) : Bool :=
  TECHNOLOGY_KEYWORDS.any
    (fun k => hasSub (lowerL k) (lowerL (title ++ " " ++ summary ++ " " ++ full_text)))

/-- A feedparser entry as read by `ArticleProcessor.process_entry`: the
fields it accesses, each possibly missing.  `published_parsed` is the
abstract time value of the entry; `none` models the `except:` branch of the
date parse. -/
structure FeedEntry where
  title : Option String
  link : Option String
  published_parsed : Option Int

/-- `ArticleProcessor.process_entry`.  External effects are passed in:
`scrape` models `extract_full_text`, `llm` models `get_llm_summary`
(returning summary text and relevance score), `fmt` models `strftime` on a
parsed date, `daysOf` models the date arithmetic inside
`calculate_heat_score`, and `nowStr` models the formatted current UTC time
used when the entry has no parseable date.  Note that a missing date does
not skip the entry: the code substitutes `nowStr` and continues. -/
def process_entry (db : ArticlesTable) (scrape : String → String)
    (llm : String → String × ℚ) (fmt : Int → String)
    (daysOf : String → Option Int) (nowStr : String)
    (e : FeedEntry) (source : String) : Option Article :=
  let title := e.title.getD "No title"
  let link := e.link.getD ""
  if (link == "") || article_exists db link then none
  else
    let scraped := scrape link
    let published_date_str :=
      match e.published_parsed with
      | some p => fmt p
      | none => nowStr
    let lr := llm scraped
    some { title := title, link := link, snippet := lr.1,
           relevance_score := lr.2, published_date := published_date_str,
           source := source, full_text := scraped, locations := "",
           novelty_score := calculate_novelty_score scraped,
           heat_score :=
             calculate_heat_score scraped (daysOf published_date_str) }

/-- One iteration of `FeedCollector.fetch_feed`'s entry loop: process the
entry and insert the resulting article, if any. -/
def fetch_feed_step (db : ArticlesTable) (scrape : String → String)
    (llm : String → String × ℚ) (fmt : Int → String)
    (daysOf : String → Option Int) (nowStr : String)
    (e : FeedEntry) (source : String) : ArticlesTable :=
  match process_entry db scrape llm fmt daysOf nowStr e source with
  | some a => insert_article db a
  | none => db

end Fetcher

namespace FetchData

/-- `src/fetch_data.py`'s `TECHNOLOGY_KEYWORDS` list, exactly as written in
that file (the literal list stops after "automation"; the rest is only a
comment in the source). -/
def TECHNOLOGY_KEYWORDS : List String :=
  ["oil", "gas", "petroleum",
   "technology", "innovation", "AI", "machine learning", "automation"]

/-- The keyword filter of `fetch_rss_feeds`:
`any(keyword.lower() in clean_text for keyword in TECHNOLOGY_KEYWORDS)` with
`clean_text = f-string joining title, summary and full text with spaces,
lowercased`. -/
def keywordMatch (title summary full_text : String) : Bool :=
  TECHNOLOGY_KEYWORDS.any
    (fun k => hasSub (lowerL k) (lowerL (title ++ " " ++ summary ++ " " ++ full_text)))

/-- `src/fetch_data.py`'s `extract_full_text`: a non-200 status returns the
sentinel `"Error: Unable to fetch article"`, any exception returns
`"Error extracting text: "` followed by the message, and on success the
paragraph texts are joined with a newline and whitespace-collapsed. -/
def extract_full_text (o : HttpOutcome) : String :=
  match o with
  | .exn msg => "Error extracting text: " ++ msg
  | .resp status paras =>
    if status ≠ 200 then "Error: Unable to fetch article"
    else collapseWs (String.intercalate "\n" paras)

/-- An RSS entry as read by `fetch_rss_feeds`: title, link and summary may
be missing (`entry.get` defaults), and `published_parsed` is `none` when the
date is absent or unparseable (the `except (AttributeError, TypeError)`
branch). -/
structure RssEntry where
  title : Option String
  link : Option String
  summary : Option String
  published_parsed : Option Int

/-- The column values passed to `src/fetch_data.py`'s `insert_article`. -/
structure InsertArgs where
  title : String
  link : String
  snippet : String
  published_date : String
  source : String
  full_text : String

/-- The per-entry body of `fetch_rss_feeds`: returns the insert issued for
the entry, or `none` when the entry is skipped (missing date, older than the
cutoff, or no keyword match).  `scrape` models `extract_full_text` on the
entry's link and `fmt` models `strftime`; `cutoff` is the abstract time value
of `now - DAYS_LIMIT`. -/
def fetch_rss_entry (cutoff : Int) (scrape : String → String)
    (fmt : Int → String) (name : String) (e : RssEntry) : Option InsertArgs :=
  let title := e.title.getD "No title"
  let link := e.link.getD "No link"
  let summary := e.summary.getD "No summary available"
  match e.published_parsed with
  | none => none
  | some p =>
    if p < cutoff then none
    else
      let full_text := if link == "No link" then "" else scrape link
      if keywordMatch title summary full_text then
        some { title := title, link := link, snippet := summary.take 300,
               published_date := fmt p, source := name, full_text := full_text }
      else none

end FetchData

namespace Dashboard

/-- `src/dashboard.py`'s `Article` dataclass — the shape of a row returned
by `get_articles` (its SELECT omits `full_text`). -/
structure Article where
  id : Nat
  title : String
  link : String
  snippet : String
  published_date : String
  source : String
  relevance_score : ℚ
  locations : String
  novelty_score : ℚ
  heat_score : ℚ

/-- `DashboardManager.PREDEFINED_CATEGORIES`. -/
def PREDEFINED_CATEGORIES : List (String × List String) :=
  [("Oil & Gas Industry", ["oil", "gas", "petroleum"]),
   ("Digital Transformation & Automation",
    ["technology", "innovation", "digital transformation"]),
   ("AI & Machine Learning Applications",
    ["AI", "machine learning", "big data analytics"]),
   ("Sustainability & Energy Transition",
    ["carbon capture", "hydrogen", "renewable energy"]),
   ("Advanced Materials & Sensing",
    ["nanomaterials", "smart sensors", "fiber optic sensing"]),
   ("Subsurface & Seismic Technologies",
    ["seismic inversion", "electromagnetic exploration",
     "microseismic monitoring"])]

/-- SQL `field LIKE '%kw%'`.  SQLite's LIKE is case-insensitive on ASCII, so
it is modelled as lowercased substring containment. -/
def likeContains (field kw : String) : Bool :=
  hasSub (lowerL kw) (lowerL field)

/-- The free-text search condition `(title LIKE ? OR snippet LIKE ?)`. -/
def searchCond (q : String) (r : Fetcher.Row) : Bool :=
  likeContains r.title q || likeContains r.snippet q

/-- `PREDEFINED_CATEGORIES.get(category, [])`. -/
def categoryKeywords (category : String) : List String :=
  (PREDEFINED_CATEGORIES.lookup category).getD []

/-- The category condition: an OR over the category's keywords of
`title LIKE ? OR snippet LIKE ?`. -/
def categoryCond (ks : List String) (r : Fetcher.Row) : Bool :=
  ks.any (fun kw => likeContains r.title kw || likeContains r.snippet kw)

/-- The source condition appended when `source_filter != "All"`:
`source != 'arXiv'` for "RSS", `source = 'arXiv'` for "arXiv", and nothing
for any other value. -/
def sourceCond (source_filter : String) (r : Fetcher.Row) : Bool :=
  if source_filter = "RSS" then !(r.source == "arXiv")
  else if source_filter = "arXiv" then r.source == "arXiv"
  else true

/-- The search member of the WHERE conjunction; Python's
`if search_query:` treats both `None` and `""` as absent, contributing no
condition. -/
def searchPart (search_query : Option String) (r : Fetcher.Row) : Bool :=
  match search_query with
  | none => true
  | some q => if q = "" then true else searchCond q r

/-- The source member of the WHERE conjunction. -/
def sourcePart (source_filter : String) (r : Fetcher.Row) : Bool :=
  if source_filter = "All" then true else sourceCond source_filter r

/-- The category member of the WHERE conjunction: an unknown category, or
one with no keywords, adds no condition. -/
def categoryPart (category : String) (r : Fetcher.Row) : Bool :=
  if category = "All" then true
  else if (categoryKeywords category).isEmpty then true
  else categoryCond (categoryKeywords category) r

/-- The conjunction of the WHERE conditions built by `get_articles` (the
source joins `query_conditions` with `" AND "`); an absent condition
contributes `true`. -/
def rowPred (search_query : Option String) (source_filter category : String)
    (r : Fetcher.Row) : Bool :=
  searchPart search_query r && sourcePart source_filter r
    && categoryPart category r

/-- ORDER BY comparator: `order_mapping.get(sort_by, 'published_date DESC')`.
SQLite orders TEXT lexicographically, modelled by `String` order. -/
def leFor (sort_by : String) : Fetcher.Row → Fetcher.Row → Bool :=
  if sort_by = "relevance" then fun a b => decide (b.relevance_score ≤ a.relevance_score)
  else if sort_by = "novelty" then fun a b => decide (b.novelty_score ≤ a.novelty_score)
  else if sort_by = "heat" then fun a b => decide (b.heat_score ≤ a.heat_score)
  else fun a b => decide (b.published_date ≤ a.published_date)

/-- The SELECT column list of `get_articles`: every column except
`full_text`, packaged as `dashboard.py`'s `Article`. -/
def projectRow (r : Fetcher.Row) : Article :=
  { id := r.id, title := r.title, link := r.link, snippet := r.snippet,
    published_date := r.published_date, source := r.source,
    relevance_score := r.relevance_score, locations := r.locations,
    novelty_score := r.novelty_score, heat_score := r.heat_score }

/-- `DashboardManager.get_articles`: filter by the conjunction of the
dynamically built conditions, order by the requested sort key, and return
the projected rows. -/
def get_articles (db : Fetcher.ArticlesTable) (search_query : Option String)
    (source_filter category sort_by : String) : List Article :=
  (((db.rows.filter (rowPred search_query source_filter category)).mergeSort
      (leFor sort_by)).map projectRow)

end Dashboard

namespace LocationUtility

/-- `src/location_utility.py`'s `KNOWN_COUNTRIES`. -/
def KNOWN_COUNTRIES : List String :=
  ["United States", "United Kingdom", "Saudi Arabia", "China",
   "India", "Germany", "France", "United Arab Emirates", "Brazil", "Canada"]

/-- `src/location_utility.py`'s `COUNTRY_ALIASES` (alias, full name). -/
def COUNTRY_ALIASES : List (String × String) :=
  [("US", "United States"), ("USA", "United States"),
   ("UAE", "United Arab Emirates"), ("UK", "United Kingdom"),
   ("KSA", "Saudi Arabia")]

/-- Adding an element to the `found_countries` set: a no-op when already
present. -/
def addUnique (acc : List String) (c : String) : List String :=
  if c ∈ acc then acc else acc ++ [c]

/-- `extract_geospatial_info`.  The input is `Option String` because the
Python function accepts `None`; `if text:` treats both `None` and `""` as
empty.  The `found_countries` set is modelled as a duplicate-free list built
in iteration order: full country names first, then alias targets. -/
def extract_geospatial_info (text : Option String) : List String :=
  match text with
  | none => []
  | some t =>
    if t = "" then []
    else
      let tl := lowerL t
      let s1 := KNOWN_COUNTRIES.foldl
        (fun acc c => if hasSub (lowerL c) tl then addUnique acc c else acc) []
      COUNTRY_ALIASES.foldl
        (fun acc p => if hasSub (lowerL p.1) tl then addUnique acc p.2 else acc) s1

end LocationUtility

/-! ### Helper lemmas about the score accumulation loop -/

/-- The total weight of the indicators that occur in the text. -/
def matchedWeight (t : List Char) (inds : List (String × ℚ)) : ℚ :=
  ((inds.filter (fun iw => hasSub iw.1.toList t)).map Prod.snd).sum

theorem scoreAccum_foldl (t : List Char) :
    ∀ (inds : List (String × ℚ)) (c : ℚ),
      inds.foldl
        (fun p iw =>
          if hasSub iw.1.toList t then (p.1 + iw.2, p.2 + iw.2) else p)
        (c, c)
      = (c + matchedWeight t inds, c + matchedWeight t inds) := by
  intro inds
  induction inds with
  | nil =>
    intro c
    simp [matchedWeight]
  | cons iw tl ih =>
    intro c
    by_cases h : hasSub iw.1.toList t = true
    · have h' : hasSub iw.1.data t = true := h
      have hm : matchedWeight t (iw :: tl) = iw.2 + matchedWeight t tl := by
        simp [matchedWeight, List.filter_cons, h']
      rw [List.foldl_cons, if_pos h, ih (c + iw.2), hm]
      simp only [Prod.mk.injEq]
      constructor <;> ring
    · have h' : ¬(hasSub iw.1.data t = true) := h
      have hm : matchedWeight t (iw :: tl) = matchedWeight t tl := by
        simp [matchedWeight, List.filter_cons, h']
      rw [List.foldl_cons, if_neg h, ih c, hm]

theorem scoreAccum_eq (t : List Char) (inds : List (String × ℚ)) :
    Fetcher.scoreAccum t inds = (matchedWeight t inds, matchedWeight t inds) := by
  have := scoreAccum_foldl t inds 0
  simpa [Fetcher.scoreAccum] using this

theorem matchedWeight_nonneg (t : List Char) (inds : List (String × ℚ))
    (h : ∀ iw ∈ inds, 0 ≤ iw.2) : 0 ≤ matchedWeight t inds := by
  apply List.sum_nonneg
  intro x hx
  rcases List.mem_map.mp hx with ⟨iw, hiw, rfl⟩
  exact h iw (List.mem_filter.mp hiw).1

theorem matchedWeight_eq_zero (t : List Char) (inds : List (String × ℚ))
    (h : inds.any (fun iw => hasSub iw.1.toList t) = false) :
    matchedWeight t inds = 0 := by
  have hf : inds.filter (fun iw => hasSub iw.1.toList t) = [] := by
    rw [List.filter_eq_nil_iff]
    intro a ha hcon
    have htrue : inds.any (fun iw => hasSub iw.1.toList t) = true :=
      List.any_eq_true.mpr ⟨a, ha, hcon⟩
    rw [h] at htrue
    exact Bool.false_ne_true htrue
  unfold matchedWeight
  rw [hf]
  simp

theorem one_le_matchedWeight (t : List Char) (inds : List (String × ℚ))
    (hw : ∀ iw ∈ inds, 1 ≤ iw.2)
    (h : inds.any (fun iw => hasSub iw.1.toList t) = true) :
    1 ≤ matchedWeight t inds := by
  rcases List.any_eq_true.mp h with ⟨iw, hiw, hc⟩
  have hmem : iw.2 ∈ (inds.filter (fun iw => hasSub iw.1.toList t)).map Prod.snd :=
    List.mem_map.mpr ⟨iw, List.mem_filter.mpr ⟨hiw, hc⟩, rfl⟩
  have hle : iw.2 ≤ matchedWeight t inds := by
    apply List.single_le_sum _ _ hmem
    intro x hx
    rcases List.mem_map.mp hx with ⟨jw, hjw, rfl⟩
    exact le_trans zero_le_one (hw jw (List.mem_filter.mp hjw).1)
  exact le_trans (hw iw hiw) hle

theorem innovation_weights_ge_one :
    ∀ iw ∈ Fetcher.innovation_indicators, (1 : ℚ) ≤ iw.2 := by
  intro iw h
  fin_cases h <;> norm_num

theorem trending_weights_ge_one :
    ∀ iw ∈ Fetcher.trending_indicators, (1 : ℚ) ≤ iw.2 := by
  intro iw h
  fin_cases h <;> norm_num

/-- The novelty score collapses to an all-or-nothing value: `100` when any
indicator occurs, else `0` (shared by the C4 and C9 theorems). -/
theorem novelty_eq_ite (text : String) :
    Fetcher.calculate_novelty_score text =
      if Fetcher.innovation_indicators.any
          (fun iw => hasSub iw.1.toList (lowerL text)) then 100 else 0 := by
  cases h : Fetcher.innovation_indicators.any
      (fun iw => hasSub iw.1.toList (lowerL text)) with
  | true =>
    have h1 : 1 ≤ matchedWeight (lowerL text) Fetcher.innovation_indicators :=
      one_le_matchedWeight _ _ innovation_weights_ge_one h
    simp only [Fetcher.calculate_novelty_score, scoreAccum_eq, h, if_true]
    rw [max_eq_left (le_trans (by norm_num) h1), div_self (by linarith)]
    norm_num
  | false =>
    have h0 : matchedWeight (lowerL text) Fetcher.innovation_indicators = 0 :=
      matchedWeight_eq_zero _ _ h
    simp only [Fetcher.calculate_novelty_score, scoreAccum_eq, h,
      Bool.false_eq_true, if_false]
    rw [h0]
    norm_num

theorem heat_nonneg (text : String) (daysOld : Option Int) :
    0 ≤ Fetcher.calculate_heat_score text daysOld := by
  have hd : 0 ≤ matchedWeight (lowerL text) Fetcher.trending_indicators /
      max (matchedWeight (lowerL text) Fetcher.trending_indicators) 1 := by
    apply div_nonneg
    · exact matchedWeight_nonneg _ _
        (fun iw h => le_trans zero_le_one (trending_weights_ge_one iw h))
    · exact le_trans zero_le_one (le_max_right _ 1)
  cases daysOld with
  | none =>
    simp only [Fetcher.calculate_heat_score, scoreAccum_eq]
    apply le_min (by norm_num)
    apply add_nonneg (mul_nonneg hd (by norm_num)) (by norm_num)
  | some d =>
    simp only [Fetcher.calculate_heat_score, scoreAccum_eq]
    apply le_min (by norm_num)
    apply add_nonneg (mul_nonneg hd (by norm_num))
    exact mul_nonneg (le_max_left 0 _) (by norm_num)

theorem heat_le_100 (text : String) (daysOld : Option Int) :
    Fetcher.calculate_heat_score text daysOld ≤ 100 := by
  unfold Fetcher.calculate_heat_score
  exact min_le_left _ _

/-- Inserting an article whose link is already stored leaves the table
untouched (the `INSERT OR IGNORE` branch). -/
theorem insert_article_of_exists (db : Fetcher.ArticlesTable)
    (b : Fetcher.Article) (h : Fetcher.article_exists db b.link = true) :
    Fetcher.insert_article db b = db := by
  unfold Fetcher.insert_article
  rw [h]
  rfl

/-- Inserting an article with a fresh link appends one row. -/
theorem insert_article_of_fresh (db : Fetcher.ArticlesTable)
    (a : Fetcher.Article) (h : Fetcher.article_exists db a.link = false) :
    Fetcher.insert_article db a
      = { rows := db.rows ++ [Fetcher.rowOf db.nextId a],
          nextId := db.nextId + 1 } := by
  unfold Fetcher.insert_article
  rw [h]
  rfl

/-! ### Claim theorems -/

/-- C4: for every input text and every fixed published date and "now"
(represented by their day difference `daysOld`, with `none` covering an
unparseable date), `calculate_heat_score` and `calculate_novelty_score` are
deterministic — two runs on the same inputs give the same result — and
return a value lying in `[0, 100]`. -/
theorem scores_deterministic_and_bounded (text : String) (daysOld : Option Int) :
    Fetcher.calculate_novelty_score text = Fetcher.calculate_novelty_score text ∧
    Fetcher.calculate_heat_score text daysOld
      = Fetcher.calculate_heat_score text daysOld ∧
    0 ≤ Fetcher.calculate_novelty_score text ∧
    Fetcher.calculate_novelty_score text ≤ 100 ∧
    0 ≤ Fetcher.calculate_heat_score text daysOld ∧
    Fetcher.calculate_heat_score text daysOld ≤ 100 := by
  refine ⟨rfl, rfl, ?_, ?_, heat_nonneg text daysOld, heat_le_100 text daysOld⟩
  · rw [novelty_eq_ite]
    split <;> norm_num
  · rw [novelty_eq_ite]
    split <;> norm_num

/-- C9: `calculate_novelty_score` only ever returns 0 or 100: because the
loop adds each matched indicator's weight to both the score and the total
weight, the ratio is 1 whenever any innovation indicator occurs in the
(lowercased) text, giving `min(100, 100) = 100`, and 0 when none occurs. -/
theorem calculate_novelty_score_zero_or_hundred (text : String) :
    Fetcher.calculate_novelty_score text =
      (if Fetcher.innovation_indicators.any
          (fun iw => hasSub iw.1.toList (lowerL text)) then 100 else 0) ∧
    (Fetcher.calculate_novelty_score text = 0 ∨
     Fetcher.calculate_novelty_score text = 100) := by
  refine ⟨novelty_eq_ite text, ?_⟩
  rw [novelty_eq_ite]
  split
  · exact Or.inr rfl
  · exact Or.inl rfl

/-- C1: inserting a second article with an already-stored link is a silent
no-op.  `insert_article` is a total function (nothing to raise), the table
is left exactly as it was — in particular the row count and the originally
stored row, with its title, are unchanged. -/
theorem insert_article_duplicate_link_noop (db : Fetcher.ArticlesTable)
    (a b : Fetcher.Article)
    (hfresh : Fetcher.article_exists db a.link = false)
    (hlink : b.link = a.link) :
    Fetcher.insert_article (Fetcher.insert_article db a) b
      = Fetcher.insert_article db a ∧
    (Fetcher.insert_article (Fetcher.insert_article db a) b).rows.length
      = (Fetcher.insert_article db a).rows.length ∧
    Fetcher.rowOf db.nextId a
      ∈ (Fetcher.insert_article (Fetcher.insert_article db a) b).rows ∧
    (Fetcher.rowOf db.nextId a).title = a.title := by
  have hdb1 := insert_article_of_fresh db a hfresh
  have hex : Fetcher.article_exists (Fetcher.insert_article db a) b.link = true := by
    rw [hdb1, hlink]
    simp [Fetcher.article_exists, Fetcher.rowOf]
  have hnoop := insert_article_of_exists _ b hex
  refine ⟨hnoop, by rw [hnoop], ?_, rfl⟩
  rw [hnoop, hdb1]
  simp

/-- Sample data for the witnesses: the spec's example scenario. -/
def sampleArticle1 : Fetcher.Article :=
  { title := "Breakthrough in CO2 capture", link := "https://x/1",
    snippet := "carbon capture snippet", relevance_score := 50,
    published_date := "2025-01-01 00:00:00", source := "OilPrice",
    full_text := "carbon capture article text", locations := "",
    novelty_score := 10, heat_score := 20 }

/-- A second article with the same link but different field values. -/
def sampleArticle2 : Fetcher.Article :=
  { title := "A completely different title", link := "https://x/1",
    snippet := "a different snippet", relevance_score := 1,
    published_date := "2025-02-02 00:00:00", source := "Reuters Commodities",
    full_text := "different text", locations := "",
    novelty_score := 0, heat_score := 0 }

/-- A freshly created articles table. -/
def emptyTable : Fetcher.ArticlesTable := { rows := [], nextId := 1 }

theorem insert_article_duplicate_link_noop_witness :
    Fetcher.article_exists emptyTable sampleArticle1.link = false ∧
    sampleArticle2.link = sampleArticle1.link ∧
    (Fetcher.insert_article (Fetcher.insert_article emptyTable sampleArticle1)
        sampleArticle2
      = Fetcher.insert_article emptyTable sampleArticle1 ∧
    (Fetcher.insert_article (Fetcher.insert_article emptyTable sampleArticle1)
        sampleArticle2).rows.length
      = (Fetcher.insert_article emptyTable sampleArticle1).rows.length ∧
    Fetcher.rowOf emptyTable.nextId sampleArticle1
      ∈ (Fetcher.insert_article (Fetcher.insert_article emptyTable sampleArticle1)
          sampleArticle2).rows ∧
    (Fetcher.rowOf emptyTable.nextId sampleArticle1).title
      = sampleArticle1.title) :=
  ⟨rfl, rfl,
   insert_article_duplicate_link_noop emptyTable sampleArticle1 sampleArticle2
     rfl rfl⟩

/-- C5: the keyword filter of `fetch_rss_feeds` is a pure predicate that is
true exactly when some configured keyword occurs — case-insensitively,
anywhere — in the concatenation of title, summary and full text. -/
theorem keyword_filter_accepts_iff_keyword_occurs
    (title summary full_text : String) :
    FetchData.keywordMatch title summary full_text = true ↔
      ∃ k ∈ FetchData.TECHNOLOGY_KEYWORDS, ∃ pre post,
        lowerL (title ++ " " ++ summary ++ " " ++ full_text)
          = pre ++ lowerL k ++ post := by
  unfold FetchData.keywordMatch
  rw [List.any_eq_true]
  constructor
  · rintro ⟨k, hk, hc⟩
    exact ⟨k, hk, (hasSub_iff _ _).mp hc⟩
  · rintro ⟨k, hk, pre, post, h⟩
    exact ⟨k, hk, (hasSub_iff _ _).mpr ⟨pre, post, h⟩⟩

theorem mem_addUnique (acc : List String) (c x : String) :
    x ∈ LocationUtility.addUnique acc c ↔ x ∈ acc ∨ x = c := by
  by_cases h : c ∈ acc
  · rw [LocationUtility.addUnique, if_pos h]
    constructor
    · exact Or.inl
    · rintro (hx | rfl)
      · exact hx
      · exact h
  · rw [LocationUtility.addUnique, if_neg h]
    simp

theorem nodup_addUnique (acc : List String) (c : String) (h : acc.Nodup) :
    (LocationUtility.addUnique acc c).Nodup := by
  by_cases hc : c ∈ acc
  · rw [LocationUtility.addUnique, if_pos hc]
    exact h
  · rw [LocationUtility.addUnique, if_neg hc]
    rw [List.nodup_append]
    refine ⟨h, List.nodup_singleton c, ?_⟩
    intro x hx hxc
    rw [List.mem_singleton] at hxc
    subst hxc
    exact hc hx

theorem mem_foldl_addUnique {α : Type} (cond : α → Bool) (tgt : α → String) :
    ∀ (l : List α) (acc : List String) (x : String),
      (x ∈ l.foldl
          (fun acc a =>
            if cond a then LocationUtility.addUnique acc (tgt a) else acc) acc
        ↔ x ∈ acc ∨ ∃ a ∈ l, cond a = true ∧ tgt a = x) := by
  intro l
  induction l with
  | nil =>
    intro acc x
    simp
  | cons a tl ih =>
    intro acc x
    rw [List.foldl_cons]
    by_cases h : cond a = true
    · rw [if_pos h, ih, mem_addUnique]
      constructor
      · rintro ((hx | rfl) | ⟨b, hb, hcb, rfl⟩)
        · exact Or.inl hx
        · exact Or.inr ⟨a, List.mem_cons_self a tl, h, rfl⟩
        · exact Or.inr ⟨b, List.mem_cons_of_mem a hb, hcb, rfl⟩
      · rintro (hx | ⟨b, hb, hcb, rfl⟩)
        · exact Or.inl (Or.inl hx)
        · rcases List.mem_cons.mp hb with rfl | hb'
          · exact Or.inl (Or.inr rfl)
          · exact Or.inr ⟨b, hb', hcb, rfl⟩
    · rw [if_neg h, ih]
      constructor
      · rintro (hx | ⟨b, hb, hcb, rfl⟩)
        · exact Or.inl hx
        · exact Or.inr ⟨b, List.mem_cons_of_mem a hb, hcb, rfl⟩
      · rintro (hx | ⟨b, hb, hcb, rfl⟩)
        · exact Or.inl hx
        · rcases List.mem_cons.mp hb with rfl | hb'
          · exact absurd hcb h
          · exact Or.inr ⟨b, hb', hcb, rfl⟩

theorem nodup_foldl_addUnique {α : Type} (cond : α → Bool) (tgt : α → String) :
    ∀ (l : List α) (acc : List String), acc.Nodup →
      (l.foldl
        (fun acc a =>
          if cond a then LocationUtility.addUnique acc (tgt a) else acc)
        acc).Nodup := by
  intro l
  induction l with
  | nil =>
    intro acc h
    simpa using h
  | cons a tl ih =>
    intro acc h
    rw [List.foldl_cons]
    by_cases hc : cond a = true
    · rw [if_pos hc]
      exact ih _ (nodup_addUnique _ _ h)
    · rw [if_neg hc]
      exact ih _ h

/-- Membership in the result of `extract_geospatial_info` on nonempty text. -/
theorem mem_extract_geospatial_info (t : String) (ht : t ≠ "") (x : String) :
    x ∈ LocationUtility.extract_geospatial_info (some t) ↔
      ((x ∈ LocationUtility.KNOWN_COUNTRIES
          ∧ hasSub (lowerL x) (lowerL t) = true) ∨
       ∃ a, (a, x) ∈ LocationUtility.COUNTRY_ALIASES
          ∧ hasSub (lowerL a) (lowerL t) = true) := by
  show x ∈ (if t = "" then [] else _) ↔ _
  rw [if_neg ht]
  rw [mem_foldl_addUnique (fun p => hasSub (lowerL p.1) (lowerL t)) Prod.snd,
    mem_foldl_addUnique (fun c => hasSub (lowerL c) (lowerL t)) (fun c => c)]
  constructor
  · rintro ((hx | ⟨c, hc, hsub, rfl⟩) | ⟨p, hp, hsub, rfl⟩)
    · exact absurd hx (List.not_mem_nil x)
    · exact Or.inl ⟨hc, hsub⟩
    · exact Or.inr ⟨p.1, by rwa [show (p.1, p.2) = p from rfl], hsub⟩
  · rintro (⟨hx, hsub⟩ | ⟨a, ha, hsub⟩)
    · exact Or.inl (Or.inr ⟨x, hx, hsub, rfl⟩)
    · exact Or.inr ⟨(a, x), ha, hsub, rfl⟩

/-- C10: `extract_geospatial_info` returns a duplicate-free list of
canonical country names: a country appears at most once even when matched
both by its full name and by an alias, every alias hit is reported as the
corresponding full name (hence every element lies in `KNOWN_COUNTRIES`),
and empty or missing text yields the empty list. -/
theorem extract_geospatial_info_nodup_canonical (t : Option String) :
    (LocationUtility.extract_geospatial_info t).Nodup ∧
    (∀ c ∈ LocationUtility.extract_geospatial_info t,
        c ∈ LocationUtility.KNOWN_COUNTRIES) ∧
    LocationUtility.extract_geospatial_info none = [] ∧
    LocationUtility.extract_geospatial_info (some "") = [] ∧
    (∀ c, c ∈ LocationUtility.extract_geospatial_info t ↔
      ∃ s, t = some s ∧ s ≠ "" ∧
        ((c ∈ LocationUtility.KNOWN_COUNTRIES
            ∧ hasSub (lowerL c) (lowerL s) = true) ∨
         ∃ a, (a, c) ∈ LocationUtility.COUNTRY_ALIASES
            ∧ hasSub (lowerL a) (lowerL s) = true)) := by
  have haliases : ∀ p ∈ LocationUtility.COUNTRY_ALIASES,
      p.2 ∈ LocationUtility.KNOWN_COUNTRIES := by decide
  have hnodup : ∀ t', (LocationUtility.extract_geospatial_info t').Nodup := by
    intro t'
    match t' with
    | none => exact List.nodup_nil
    | some s =>
      by_cases hs : s = ""
      · subst hs
        exact List.nodup_nil
      · show (if s = "" then ([] : List String) else _).Nodup
        rw [if_neg hs]
        exact nodup_foldl_addUnique _ _ _ _
          (nodup_foldl_addUnique _ _ _ _ List.nodup_nil)
  refine ⟨hnodup t, ?_, rfl, rfl, ?_⟩
  · intro c hc
    match t with
    | none => exact absurd hc (List.not_mem_nil c)
    | some s =>
      by_cases hs : s = ""
      · subst hs
        exact absurd hc (List.not_mem_nil c)
      · rcases (mem_extract_geospatial_info s hs c).mp hc with ⟨h1, -⟩ | ⟨a, ha, -⟩
        · exact h1
        · exact haliases (a, c) ha
  · intro c
    match t with
    | none =>
      simp [LocationUtility.extract_geospatial_info]
    | some s =>
      by_cases hs : s = ""
      · subst hs
        constructor
        · intro hc
          exact absurd hc (List.not_mem_nil c)
        · rintro ⟨s', hs', hne, -⟩
          cases hs'
          exact absurd rfl hne
      · rw [mem_extract_geospatial_info s hs c]
        constructor
        · intro h
          exact ⟨s, rfl, hs, h⟩
        · rintro ⟨s', hs', -, h⟩
          cases hs'
          exact h

/-- Membership in a `get_articles` result: the ORDER BY (a merge sort) is a
permutation, so a projected row is returned iff some stored row passes the
WHERE conditions and projects to it. -/
theorem mem_get_articles (db : Fetcher.ArticlesTable) (sq : Option String)
    (sf cat sb : String) (a : Dashboard.Article) :
    a ∈ Dashboard.get_articles db sq sf cat sb ↔
      ∃ r ∈ db.rows, Dashboard.rowPred sq sf cat r = true
        ∧ Dashboard.projectRow r = a := by
  unfold Dashboard.get_articles
  rw [List.mem_map]
  constructor
  · rintro ⟨r, hr, rfl⟩
    rw [List.mem_mergeSort] at hr
    rcases List.mem_filter.mp hr with ⟨h1, h2⟩
    exact ⟨r, h1, h2, rfl⟩
  · rintro ⟨r, h1, h2, rfl⟩
    exact ⟨r, List.mem_mergeSort.mpr (List.mem_filter.mpr ⟨h1, h2⟩), rfl⟩

/-- With no search text, source filter "All" and category "All" no WHERE
condition is added: every row passes. -/
theorem rowPred_no_filters (r : Fetcher.Row) :
    Dashboard.rowPred none "All" "All" r = true := rfl

/-- C2: `get_articles` composes its filters conjunctively.  First, with
`source_filter = "arXiv"` every returned article has source "arXiv",
whatever the other arguments are.  Second, supplying both a nonempty
free-text search and a category with a nonempty keyword list returns exactly
the rows satisfying both the search predicate and the category predicate —
the intersection, never the union. -/
theorem get_articles_filter_composition (db : Fetcher.ArticlesTable)
    (q category sort_by k : String) (ks : List String)
    (hq : q ≠ "") (hcat : category ≠ "All")
    (hks : Dashboard.categoryKeywords category = k :: ks) :
    (∀ (sq : Option String) (c : String) (a : Dashboard.Article),
        a ∈ Dashboard.get_articles db sq "arXiv" c sort_by
          → a.source = "arXiv") ∧
    (∀ a : Dashboard.Article,
        a ∈ Dashboard.get_articles db (some q) "All" category sort_by ↔
          ∃ r ∈ db.rows, Dashboard.projectRow r = a
            ∧ Dashboard.searchCond q r = true
            ∧ Dashboard.categoryCond (k :: ks) r = true) := by
  constructor
  · intro sq c a ha
    rcases (mem_get_articles db sq "arXiv" c sort_by a).mp ha with ⟨r, -, hp, rfl⟩
    unfold Dashboard.rowPred at hp
    rw [Bool.and_eq_true, Bool.and_eq_true] at hp
    rcases hp with ⟨⟨-, h2⟩, -⟩
    have h2' : (r.source == "arXiv") = true := h2
    exact beq_iff_eq.mp h2'
  · have hpred : ∀ r, Dashboard.rowPred (some q) "All" category r
        = (Dashboard.searchCond q r && Dashboard.categoryCond (k :: ks) r) := by
      intro r
      have hs : Dashboard.searchPart (some q) r = Dashboard.searchCond q r := by
        show (if q = "" then true else Dashboard.searchCond q r)
          = Dashboard.searchCond q r
        rw [if_neg hq]
      have hc : Dashboard.categoryPart category r
          = Dashboard.categoryCond (k :: ks) r := by
        unfold Dashboard.categoryPart
        rw [if_neg hcat, hks]
        rfl
      unfold Dashboard.rowPred
      rw [hs, hc, show Dashboard.sourcePart "All" r = true from rfl,
        Bool.and_true]
    intro a
    rw [mem_get_articles]
    constructor
    · rintro ⟨r, hr, hp, rfl⟩
      rw [hpred r, Bool.and_eq_true] at hp
      exact ⟨r, hr, rfl, hp.1, hp.2⟩
    · rintro ⟨r, hr, rfl, hs, hc⟩
      exact ⟨r, hr, by rw [hpred r, Bool.and_eq_true]; exact ⟨hs, hc⟩, rfl⟩

/-- A one-row table for the query witnesses. -/
def sampleTable : Fetcher.ArticlesTable :=
  { rows := [Fetcher.rowOf 1 sampleArticle1], nextId := 2 }

theorem get_articles_filter_composition_witness :
    ("oil" : String) ≠ "" ∧
    ("Oil & Gas Industry" : String) ≠ "All" ∧
    Dashboard.categoryKeywords "Oil & Gas Industry"
      = ["oil", "gas", "petroleum"] ∧
    ((∀ (sq : Option String) (c : String) (a : Dashboard.Article),
        a ∈ Dashboard.get_articles sampleTable sq "arXiv" c "date"
          → a.source = "arXiv") ∧
     (∀ a : Dashboard.Article,
        a ∈ Dashboard.get_articles sampleTable (some "oil") "All"
            "Oil & Gas Industry" "date" ↔
          ∃ r ∈ sampleTable.rows, Dashboard.projectRow r = a
            ∧ Dashboard.searchCond "oil" r = true
            ∧ Dashboard.categoryCond ["oil", "gas", "petroleum"] r = true)) :=
  ⟨by decide, by decide, by decide,
   get_articles_filter_composition sampleTable "oil" "Oil & Gas Industry"
     "date" "oil" ["gas", "petroleum"] (by decide) (by decide) (by decide)⟩

/-- C3: round-trip.  Inserting an article with a fresh link and querying
with no filters returns an article agreeing with it on every column of the
dashboard's `Article` shape (the SELECT omits `full_text`, which is
nevertheless stored unchanged in the matching row), modulo the
store-assigned id. -/
theorem insert_then_get_articles_round_trip (db : Fetcher.ArticlesTable)
    (a : Fetcher.Article)
    (hfresh : Fetcher.article_exists db a.link = false) :
    ∃ x ∈ Dashboard.get_articles (Fetcher.insert_article db a)
        none "All" "All" "date",
      x.title = a.title ∧ x.link = a.link ∧ x.snippet = a.snippet ∧
      x.published_date = a.published_date ∧ x.source = a.source ∧
      x.relevance_score = a.relevance_score ∧ x.locations = a.locations ∧
      x.novelty_score = a.novelty_score ∧ x.heat_score = a.heat_score ∧
      ∃ r ∈ (Fetcher.insert_article db a).rows,
        r.id = x.id ∧ r.full_text = a.full_text := by
  have hmem : Fetcher.rowOf db.nextId a ∈ (Fetcher.insert_article db a).rows := by
    rw [insert_article_of_fresh db a hfresh]
    simp
  refine ⟨Dashboard.projectRow (Fetcher.rowOf db.nextId a), ?_, rfl, rfl, rfl,
    rfl, rfl, rfl, rfl, rfl, rfl, Fetcher.rowOf db.nextId a, hmem, rfl, rfl⟩
  exact (mem_get_articles _ _ _ _ _ _).mpr
    ⟨Fetcher.rowOf db.nextId a, hmem, rowPred_no_filters _, rfl⟩

theorem insert_then_get_articles_round_trip_witness :
    Fetcher.article_exists emptyTable sampleArticle1.link = false ∧
    ∃ x ∈ Dashboard.get_articles (Fetcher.insert_article emptyTable sampleArticle1)
        none "All" "All" "date",
      x.title = sampleArticle1.title ∧ x.link = sampleArticle1.link ∧
      x.snippet = sampleArticle1.snippet ∧
      x.published_date = sampleArticle1.published_date ∧
      x.source = sampleArticle1.source ∧
      x.relevance_score = sampleArticle1.relevance_score ∧
      x.locations = sampleArticle1.locations ∧
      x.novelty_score = sampleArticle1.novelty_score ∧
      x.heat_score = sampleArticle1.heat_score ∧
      ∃ r ∈ (Fetcher.insert_article emptyTable sampleArticle1).rows,
        r.id = x.id ∧ r.full_text = sampleArticle1.full_text :=
  ⟨rfl, insert_then_get_articles_round_trip emptyTable sampleArticle1 rfl⟩

/-- `process_entry` on an entry with a fresh nonempty link always produces
an article — there is no keyword gate, and a missing date only switches the
published date to the current time. -/
theorem process_entry_some (db : Fetcher.ArticlesTable)
    (scrape : String → String) (llm : String → String × ℚ)
    (fmt : Int → String) (daysOf : String → Option Int) (nowStr : String)
    (e : Fetcher.FeedEntry) (source l : String)
    (hl : e.link = some l) (hl0 : l ≠ "")
    (hdb : Fetcher.article_exists db l = false) :
    Fetcher.process_entry db scrape llm fmt daysOf nowStr e source
      = some
        { title := e.title.getD "No title", link := l,
          snippet := (llm (scrape l)).1,
          relevance_score := (llm (scrape l)).2,
          published_date :=
            match e.published_parsed with
            | some p => fmt p
            | none => nowStr,
          source := source, full_text := scrape l, locations := "",
          novelty_score := Fetcher.calculate_novelty_score (scrape l),
          heat_score :=
            Fetcher.calculate_heat_score (scrape l)
              (daysOf (match e.published_parsed with
                       | some p => fmt p
                       | none => nowStr)) } := by
  have hbeq : (l == "") = false := beq_eq_false_iff_ne.mpr hl0
  simp only [Fetcher.process_entry, hl, Option.getD_some, hdb, hbeq,
    Bool.or_false, Bool.false_eq_true, if_false]

/-- The `fetch_feed` loop inserts a row for every article `process_entry`
produces: with a fresh nonempty link, the table grows by exactly one row. -/
theorem fetch_feed_step_length (db : Fetcher.ArticlesTable)
    (scrape : String → String) (llm : String → String × ℚ)
    (fmt : Int → String) (daysOf : String → Option Int) (nowStr : String)
    (e : Fetcher.FeedEntry) (source l : String)
    (hl : e.link = some l) (hl0 : l ≠ "")
    (hdb : Fetcher.article_exists db l = false) :
    (Fetcher.fetch_feed_step db scrape llm fmt daysOf nowStr e source).rows.length
      = db.rows.length + 1 := by
  unfold Fetcher.fetch_feed_step
  rw [process_entry_some db scrape llm fmt daysOf nowStr e source l hl hl0 hdb]
  show (Fetcher.insert_article db _).rows.length = _
  rw [insert_article_of_fresh db _ hdb]
  simp

/-- C7: neither `extract_full_text` can raise — each is a total function of
the fetch outcome.  On an exception or a non-200 response each returns its
fixed sentinel string (`"Error ..."` in `fetch_data.py`, `""` in
`fetcher.py`, whose handler catches the `raise_for_status` exception), and
on a 200 response each returns the whitespace-collapsed join of the page's
paragraph texts: a string with no two adjacent whitespace characters and no
leading or trailing whitespace. -/
theorem extract_full_text_never_raises (status : Nat) (paras : List String)
    (msg s : String) (hstatus : status ≠ 200) :
    FetchData.extract_full_text (.exn msg) = "Error extracting text: " ++ msg ∧
    FetchData.extract_full_text (.resp status paras)
      = "Error: Unable to fetch article" ∧
    FetchData.extract_full_text (.resp 200 paras)
      = collapseWs (String.intercalate "\n" paras) ∧
    Fetcher.extract_full_text (.exn msg) = "" ∧
    Fetcher.extract_full_text (.resp status paras) = "" ∧
    Fetcher.extract_full_text (.resp 200 paras)
      = collapseWs (String.intercalate " " (paras.map String.trim)) ∧
    List.Chain' wsPair (collapseWs s).toList ∧
    (∀ c, (collapseWs s).toList.head? = some c → c.isWhitespace = false) ∧
    (∀ c, (collapseWs s).toList.getLast? = some c → c.isWhitespace = false) := by
  refine ⟨rfl, ?_, ?_, rfl, ?_, ?_, collapseWs_chain s, collapseWs_head s,
    collapseWs_getLast s⟩
  · simp only [FetchData.extract_full_text]
    rw [if_pos hstatus]
  · simp only [FetchData.extract_full_text]
    rw [if_neg (show ¬(200 : Nat) ≠ 200 by norm_num)]
  · simp only [Fetcher.extract_full_text]
    rw [if_pos hstatus]
  · simp only [Fetcher.extract_full_text]
    rw [if_neg (show ¬(200 : Nat) ≠ 200 by norm_num)]

theorem extract_full_text_never_raises_witness :
    (404 : Nat) ≠ 200 ∧
    (FetchData.extract_full_text (.exn "boom")
        = "Error extracting text: " ++ "boom" ∧
     FetchData.extract_full_text (.resp 404 ["p1", "p2"])
        = "Error: Unable to fetch article" ∧
     FetchData.extract_full_text (.resp 200 ["p1", "p2"])
        = collapseWs (String.intercalate "\n" ["p1", "p2"]) ∧
     Fetcher.extract_full_text (.exn "boom") = "" ∧
     Fetcher.extract_full_text (.resp 404 ["p1", "p2"]) = "" ∧
     Fetcher.extract_full_text (.resp 200 ["p1", "p2"])
        = collapseWs (String.intercalate " " (["p1", "p2"].map String.trim)) ∧
     List.Chain' wsPair (collapseWs "  a  b ").toList ∧
     (∀ c, (collapseWs "  a  b ").toList.head? = some c
        → c.isWhitespace = false) ∧
     (∀ c, (collapseWs "  a  b ").toList.getLast? = some c
        → c.isWhitespace = false)) :=
  ⟨by decide,
   extract_full_text_never_raises 404 ["p1", "p2"] "boom" "  a  b " (by decide)⟩

/-- A fetcher feed entry carrying a date but none of the technology
keywords. -/
def dateEntryNoKw : Fetcher.FeedEntry :=
  { title := some "Bridge collapse update",
    link := some "https://news.example/bridge", published_parsed := some 100 }

/-- A fetcher feed entry with keywords in its title but no parseable
date. -/
def kwEntryNoDate : Fetcher.FeedEntry :=
  { title := some "Oil market report",
    link := some "https://news.example/oilmarket", published_parsed := none }

/-- A fetch_data RSS entry with a date but none of the technology
keywords. -/
def sampleRssNoKw : FetchData.RssEntry :=
  { title := some "Bridge collapse update",
    link := some "https://news.example/bridge",
    summary := some "short note", published_parsed := some 50 }

/-- A fetch_data RSS entry whose publish date is missing. -/
def sampleRssNoDate : FetchData.RssEntry :=
  { title := some "Oil market report",
    link := some "https://news.example/oilmarket",
    summary := some "crude note", published_parsed := none }

/-- C6 (amended): only `fetch_data.py`'s pipeline has a keyword gate.  In
`fetch_rss_feeds` an entry whose concatenated title+summary+full-text
matches no technology keyword is discarded (no insert), but `fetcher.py`'s
`process_entry`/`fetch_feed` pipeline applies no keyword filter at all: even
an entry matching no keyword is inserted, growing the table by one row. -/
theorem keyword_filter_only_in_fetch_data
    (cutoff : Int) (scrape : String → String) (fmt : Int → String)
    (name : String) (e : FetchData.RssEntry)
    (hkw : FetchData.keywordMatch (e.title.getD "No title")
        (e.summary.getD "No summary available")
        (if (e.link.getD "No link") == "No link" then ""
         else scrape (e.link.getD "No link")) = false)
    (db : Fetcher.ArticlesTable) (scrape2 : String → String)
    (llm : String → String × ℚ) (fmt2 : Int → String)
    (daysOf : String → Option Int) (nowStr : String)
    (e2 : Fetcher.FeedEntry) (source l : String)
    (hl : e2.link = some l) (hl0 : l ≠ "")
    (hdb : Fetcher.article_exists db l = false)
    (_hkw2 : FetchData.keywordMatch (e2.title.getD "No title") ""
        (scrape2 l) = false) :
    FetchData.fetch_rss_entry cutoff scrape fmt name e = none ∧
    (Fetcher.fetch_feed_step db scrape2 llm fmt2 daysOf nowStr e2 source).rows.length
      = db.rows.length + 1 := by
  refine ⟨?_, fetch_feed_step_length db scrape2 llm fmt2 daysOf nowStr e2
    source l hl hl0 hdb⟩
  cases hp : e.published_parsed with
  | none => simp only [FetchData.fetch_rss_entry, hp]
  | some p =>
    by_cases hc : p < cutoff
    · simp only [FetchData.fetch_rss_entry, hp, if_pos hc]
    · simp only [FetchData.fetch_rss_entry, hp, if_neg hc, hkw,
        Bool.false_eq_true, if_false]

theorem keyword_filter_only_in_fetch_data_witness :
    FetchData.keywordMatch (sampleRssNoKw.title.getD "No title")
      (sampleRssNoKw.summary.getD "No summary available")
      (if (sampleRssNoKw.link.getD "No link") == "No link" then ""
       else (fun _ => "") (sampleRssNoKw.link.getD "No link")) = false ∧
    dateEntryNoKw.link = some "https://news.example/bridge" ∧
    ("https://news.example/bridge" : String) ≠ "" ∧
    Fetcher.article_exists emptyTable "https://news.example/bridge" = false ∧
    FetchData.keywordMatch (dateEntryNoKw.title.getD "No title") ""
      ((fun _ => "") "https://news.example/bridge") = false ∧
    (FetchData.fetch_rss_entry 0 (fun _ => "")
        (fun _ => "2025-01-01 00:00:00") "CNN" sampleRssNoKw = none ∧
     (Fetcher.fetch_feed_step emptyTable (fun _ => "")
        (fun _ => ("summary", 0)) (fun _ => "2025-01-01 00:00:00")
        (fun _ => none) "2025-06-01 00:00:00"
        dateEntryNoKw "CNN").rows.length = emptyTable.rows.length + 1) :=
  ⟨by decide, rfl, by decide, rfl, by decide,
   keyword_filter_only_in_fetch_data 0 (fun _ => "")
     (fun _ => "2025-01-01 00:00:00") "CNN" sampleRssNoKw (by decide)
     emptyTable (fun _ => "") (fun _ => ("summary", 0))
     (fun _ => "2025-01-01 00:00:00") (fun _ => none) "2025-06-01 00:00:00"
     dateEntryNoKw "CNN" "https://news.example/bridge" rfl (by decide) rfl
     (by decide)⟩

/-- C6 counterexample to the claim as stated: a concrete entry whose
concatenated title+summary+full-text contains no keyword of either static
keyword table, yet processing it through `fetcher.py`'s pipeline inserts a
row into the article store. -/
theorem no_keyword_entry_inserted_counterexample :
    FetchData.keywordMatch "Bridge collapse update" "" "" = false ∧
    Fetcher.keywordMatchAll "Bridge collapse update" "" "" = false ∧
    (Fetcher.fetch_feed_step emptyTable (fun _ => "")
        (fun _ => ("summary", 0)) (fun _ => "2025-01-01 00:00:00")
        (fun _ => none) "2025-06-01 00:00:00"
        dateEntryNoKw "CNN").rows.length = 1 := by
  refine ⟨by decide, by decide, ?_⟩
  rfl

/-- C8 (amended): only `fetch_data.py` skips dateless entries.  In
`fetch_rss_feeds` an entry without a parseable publish date is skipped and
never inserted, but `fetcher.py`'s `process_entry` does not skip it: the
formatted current UTC time is substituted as the published date, the entry
is processed, and `fetch_feed` inserts it. -/
theorem dateless_entry_skipped_only_in_fetch_data
    (cutoff : Int) (scrape : String → String) (fmt : Int → String)
    (name : String) (e : FetchData.RssEntry)
    (he : e.published_parsed = none)
    (db : Fetcher.ArticlesTable) (scrape2 : String → String)
    (llm : String → String × ℚ) (fmt2 : Int → String)
    (daysOf : String → Option Int) (nowStr : String)
    (e2 : Fetcher.FeedEntry) (source l : String)
    (he2 : e2.published_parsed = none) (hl : e2.link = some l) (hl0 : l ≠ "")
    (hdb : Fetcher.article_exists db l = false) :
    FetchData.fetch_rss_entry cutoff scrape fmt name e = none ∧
    (∃ a, Fetcher.process_entry db scrape2 llm fmt2 daysOf nowStr e2 source
        = some a ∧ a.published_date = nowStr) ∧
    (Fetcher.fetch_feed_step db scrape2 llm fmt2 daysOf nowStr e2 source).rows.length
      = db.rows.length + 1 := by
  refine ⟨?_, ?_, fetch_feed_step_length db scrape2 llm fmt2 daysOf nowStr e2
    source l hl hl0 hdb⟩
  · simp only [FetchData.fetch_rss_entry, he]
  · refine ⟨_, process_entry_some db scrape2 llm fmt2 daysOf nowStr e2
      source l hl hl0 hdb, ?_⟩
    show (match e2.published_parsed with
          | some p => fmt2 p
          | none => nowStr) = nowStr
    rw [he2]

theorem dateless_entry_skipped_only_in_fetch_data_witness :
    sampleRssNoDate.published_parsed = none ∧
    kwEntryNoDate.published_parsed = none ∧
    kwEntryNoDate.link = some "https://news.example/oilmarket" ∧
    ("https://news.example/oilmarket" : String) ≠ "" ∧
    Fetcher.article_exists emptyTable "https://news.example/oilmarket" = false ∧
    (FetchData.fetch_rss_entry 0 (fun _ => "")
        (fun _ => "2025-01-01 00:00:00") "OilPrice" sampleRssNoDate = none ∧
     (∃ a, Fetcher.process_entry emptyTable (fun _ => "")
        (fun _ => ("summary", 0)) (fun _ => "2025-01-01 00:00:00")
        (fun _ => none) "2025-06-01 00:00:00" kwEntryNoDate "OilPrice"
          = some a ∧ a.published_date = "2025-06-01 00:00:00") ∧
     (Fetcher.fetch_feed_step emptyTable (fun _ => "")
        (fun _ => ("summary", 0)) (fun _ => "2025-01-01 00:00:00")
        (fun _ => none) "2025-06-01 00:00:00" kwEntryNoDate
        "OilPrice").rows.length = emptyTable.rows.length + 1) :=
  ⟨rfl, rfl, rfl, by decide, rfl,
   dateless_entry_skipped_only_in_fetch_data 0 (fun _ => "")
     (fun _ => "2025-01-01 00:00:00") "OilPrice" sampleRssNoDate rfl
     emptyTable (fun _ => "") (fun _ => ("summary", 0))
     (fun _ => "2025-01-01 00:00:00") (fun _ => none) "2025-06-01 00:00:00"
     kwEntryNoDate "OilPrice" "https://news.example/oilmarket" rfl rfl
     (by decide) rfl⟩

/-- C8 counterexample to the claim as stated: a concrete feed entry without
a parseable publish date is not skipped by `fetcher.py` — a row for it is
inserted into the article store. -/
theorem dateless_entry_inserted_counterexample :
    kwEntryNoDate.published_parsed = none ∧
    (Fetcher.fetch_feed_step emptyTable (fun _ => "")
        (fun _ => ("summary", 0)) (fun _ => "2025-01-01 00:00:00")
        (fun _ => none) "2025-06-01 00:00:00"
        kwEntryNoDate "OilPrice").rows.length = 1 :=
  ⟨rfl, rfl⟩

end BrightStars
